import Mathlib

/-!
Shallow embedding of the `raycast-elevenlabs-tts` extension
(`src/speak-selected.tsx`, `src/utils/text.ts`, `src/services/elevenlabs/config.ts`)
and proofs about it.

Conventions:
  * JavaScript numbers are modelled as `JsVal` (NaN / ±Infinity / an exact
    rational).  The inputs exercised by the theorems (decimal preference
    strings, the constants 0.5 / 0.75 / 0 / 1) are all exactly representable,
    so no rounding model is needed for the properties at stake.
  * Byte strings are `List Nat` (each entry < 256 by construction of the
    base64 decoder).
  * The event-driven body of `streamElevenLabsAudio` is embedded as a
    deterministic step function over an explicit state, driven by a list of
    scheduler labels (message arrival, handler resumption after an `await`,
    `afplay` exit, socket error / close).  Every label is a point where the
    real Node event loop can interleave; advancing a handler between two
    `await`s is atomic, exactly as in the event loop.
-/

namespace ElevenTTS

/-! ### Node `Buffer.from(s, "base64")`

Node's base64 decoder ignores every character outside the (standard or
url-safe) alphabet, including `=` padding, then decodes 6-bit groups:
4 chars -> 3 bytes, a trailing 3 -> 2 bytes, a trailing 2 -> 1 byte and a
trailing single char yields nothing. -/

def b64Index (c : Char) : Option Nat :=
  if 'A' ≤ c ∧ c ≤ 'Z' then some (c.toNat - 'A'.toNat)
  else if 'a' ≤ c ∧ c ≤ 'z' then some (c.toNat - 'a'.toNat + 26)
  else if '0' ≤ c ∧ c ≤ '9' then some (c.toNat - '0'.toNat + 52)
  else if c = '+' ∨ c = '-' then some 62
  else if c = '/' ∨ c = '_' then some 63
  else none

def b64Groups : List Nat → List Nat
  | a :: b :: c :: d :: rest =>
      (a * 4 + b / 16) :: ((b % 16) * 16 + c / 4) :: ((c % 4) * 64 + d) :: b64Groups rest
  | [a, b] => [a * 4 + b / 16]
  | [a, b, c] => [a * 4 + b / 16, (b % 16) * 16 + c / 4]
  | _ => []

def nodeB64Decode (s : String) : List Nat :=
  b64Groups (s.data.filterMap b64Index)

/-! ### `getErrorMessage` (src/speak-selected.tsx)

`error.message.includes(needle)` is a substring test. -/

def strContainsAux (needle : List Char) : List Char → Bool
  | [] => needle.isEmpty
  | c :: t => needle.isPrefixOf (c :: t) || strContainsAux needle t

def strContains (hay needle : String) : Bool :=
  strContainsAux needle.data hay.data

def getErrorMessage (e : String) : String :=
  if strContains e "invalid_api_key" then
    "Invalid API key - Please check your ElevenLabs API key in Raycast preferences (⌘,)"
  else if strContains e "ENOTFOUND" then
    "No internet connection - Please check your network and try again"
  else "ElevenLabs error: " ++ e

/-! ### JavaScript numbers and `parseFloat` -/

inductive JsVal
  | nan
  | posInf
  | negInf
  | fin (q : ℚ)
deriving DecidableEq

def digitsToNat (cs : List Char) : Nat :=
  cs.foldl (fun n c => n * 10 + (c.toNat - 48)) 0

/-- The exponent factor of a JS float literal: `e`/`E`, optional sign, digits.
An ill-formed exponent part is simply not consumed by `parseFloat`. -/
def expFactor (sgn : Int) (l : List Char) : ℚ :=
  let ed := l.takeWhile Char.isDigit
  if ed.isEmpty then 1 else (10 : ℚ) ^ (sgn * (digitsToNat ed : Int))

def expPart : List Char → ℚ
  | c :: r3 =>
      if c = 'e' ∨ c = 'E' then
        match r3 with
        | s :: r4 =>
            if s = '+' then expFactor 1 r4
            else if s = '-' then expFactor (-1) r4
            else expFactor 1 r3
        | [] => 1
      else 1
  | [] => 1

/-- `StrDecimalLiteral`: digits, optional `.` digits, optional exponent; at
least one digit must be present before or after the dot. -/
def parseDecimal (cs : List Char) : Option ℚ :=
  let d1 := cs.takeWhile Char.isDigit
  let r1 := cs.dropWhile Char.isDigit
  let hasDot := r1.head? = some '.'
  let d2 := if hasDot then r1.tail.takeWhile Char.isDigit else []
  let r2 := if hasDot then r1.tail.dropWhile Char.isDigit else r1
  if d1.isEmpty && d2.isEmpty then none
  else
    some (((digitsToNat d1 : ℚ) + (digitsToNat d2 : ℚ) / (10 : ℚ) ^ d2.length) * expPart r2)

/-- JS `parseFloat`: skip leading whitespace, optional sign, `Infinity` or a
decimal literal read as the longest valid prefix; otherwise NaN. -/
def jsParseFloat (s : String) : JsVal :=
  let cs := s.data.dropWhile Char.isWhitespace
  let neg := cs.head? = some '-'
  let cs1 := if cs.head? = some '-' ∨ cs.head? = some '+' then cs.tail else cs
  if "Infinity".data.isPrefixOf cs1 then
    if neg then .negInf else .posInf
  else
    match parseDecimal cs1 with
    | some q => .fin (if neg then -q else q)
    | none => .nan

/-- JS truthiness on numbers: `0`, `-0` and `NaN` are falsy. -/
def jsTruthy : JsVal → Bool
  | .nan => false
  | .fin q => decide (q ≠ 0)
  | _ => true

/-- JS `a || b`. -/
def jsOr (a b : JsVal) : JsVal := if jsTruthy a then a else b

/-- `Math.max`. -/
def jsMax : JsVal → JsVal → JsVal
  | .nan, _ => .nan
  | _, .nan => .nan
  | .posInf, _ => .posInf
  | _, .posInf => .posInf
  | .negInf, b => b
  | a, .negInf => a
  | .fin a, .fin b => .fin (max a b)

/-- `Math.min`. -/
def jsMin : JsVal → JsVal → JsVal
  | .nan, _ => .nan
  | _, .nan => .nan
  | .negInf, _ => .negInf
  | _, .negInf => .negInf
  | .posInf, b => b
  | a, .posInf => a
  | .fin a, .fin b => .fin (min a b)

/-- Voice generation settings passed to the ElevenLabs API
(`VoiceSettings` in the source). -/
structure VoiceSettings where
  stability : JsVal
  similarity_boost : JsVal
deriving DecidableEq

/-- `prepareVoiceSettings` (src/speak-selected.tsx):
`Math.min(1, Math.max(0, parseFloat(str) || default))` for each field. -/
def prepareVoiceSettings (stabilityStr similarityBoostStr : String) : VoiceSettings :=
  { stability :=
      jsMin (.fin 1) (jsMax (.fin 0) (jsOr (jsParseFloat stabilityStr) (.fin 0.5)))
    similarity_boost :=
      jsMin (.fin 1) (jsMax (.fin 0) (jsOr (jsParseFloat similarityBoostStr) (.fin 0.75))) }

/-! ### `createStreamConfig` and the open-handshake messages -/

structure GenerationConfig where
  chunk_length_schedule : List Nat
  stream_chunk_size : Nat
deriving DecidableEq

structure ElevenLabsConfig where
  text : String
  voice_settings : VoiceSettings
  generation_config : GenerationConfig
deriving DecidableEq

def createStreamConfig (text : String) (settings : VoiceSettings) : ElevenLabsConfig :=
  { text := text
    voice_settings := settings
    generation_config :=
      { chunk_length_schedule := [120, 160, 250, 290]
        stream_chunk_size := 8192 } }

inductive OutboundMsg
  | cfg (c : ElevenLabsConfig)
  | bos
  | eos
deriving DecidableEq

/-- The three `ws.send` calls of the `ws.on("open", ...)` handler, in order. -/
def openHandlerSends (text : String) (settings : VoiceSettings) : List OutboundMsg :=
  [.cfg (createStreamConfig text settings), .bos, .eos]

/-! ### The temporary file path

`join(tmpdir(), `raycast-tts-${Date.now()}.mp3`)`.  `${n}` renders the
(integral, < 2^53) millisecond timestamp in decimal. -/

def digitChar10 (n : Nat) : Char := Char.ofNat (48 + n)

def natDigitsRev (n : Nat) : List Char :=
  if h : n = 0 then [] else digitChar10 (n % 10) :: natDigitsRev (n / 10)
decreasing_by exact Nat.div_lt_self (Nat.pos_of_ne_zero h) (by norm_num)

def natToDecimal (n : Nat) : String :=
  if n = 0 then "0" else (natDigitsRev n).reverse.asString

/-- Value of a least-significant-digit-first character list; recovers the
number from `natDigitsRev` (used to prove `natToDecimal` injective). -/
def lsbVal : List Char → Nat
  | [] => 0
  | c :: r => (c.toNat - 48) + 10 * lsbVal r

def tempFileName (tmpdir : String) (now : Nat) : String :=
  tmpdir ++ "/" ++ ("raycast-tts-" ++ natToDecimal now ++ ".mp3")

/-! ### Text utilities (src/utils/text.ts) -/

def jsTrim (s : String) : String :=
  (((s.data.dropWhile Char.isWhitespace).reverse.dropWhile Char.isWhitespace).reverse).asString

/-- JS `String.prototype.split(/\s+/)`: the accumulator is `some cur` while
inside a token (in reverse) and `none` while skipping a separator run just
after a token was emitted. `"".split` gives `[""]`, a trailing separator run
yields a trailing `""`. -/
def splitWsGo : List Char → Option (List Char) → List (List Char)
  | [], none => [[]]
  | [], some cur => [cur.reverse]
  | c :: rest, none =>
      if c.isWhitespace then splitWsGo rest none else splitWsGo rest (some [c])
  | c :: rest, some cur =>
      if c.isWhitespace then cur.reverse :: splitWsGo rest none
      else splitWsGo rest (some (c :: cur))

def jsSplitWs (s : String) : List String :=
  (splitWsGo s.data (some [])).map List.asString

structure TextStats where
  wordCount : Nat
  charCount : Nat
deriving DecidableEq

/-- `getTextStats`: `text.trim().split(/\s+/).length` and `text.length`. -/
def getTextStats (text : String) : TextStats :=
  { wordCount := (jsSplitWs (jsTrim text)).length
    charCount := text.length }

/-! ### The `streamElevenLabsAudio` event machine

One invocation of `streamElevenLabsAudio` is a promise executor hooking four
WebSocket events.  The `message` handler is `async`: it runs atomically up to
its first `await` and each `await` is a suspension point at which other events
run.  The machine state below carries the shared mutable state of the closure
(`isPlaying`, `chunksReceived`), the temp file, the promise outcome, and a few
write-once ghost fields that record observations (they never influence a
transition).

Suspended `message` handlers:
  * after the `await fs.writeFile(...)` append, every handler is suspended;
    `pending` holds their `isFinal` flags in arrival order.  Resuming one
    either enters the `if (!isPlaying)` block (spawning `afplay` and
    suspending on `await playAudio`) or falls through to the `isFinal` check.
  * at most one handler (the one that flipped `isPlaying`) waits on
    `playAudio`; `player` tracks it: `waiting` while `afplay` runs, `exited`
    once `afplay` ends but before the handler continuation runs, `finished`
    after the continuation (unlink + `isFinal` check, or the catch block)
    completed.  The short `await fs.unlink` in that continuation is collapsed
    into it: no branch of the program observes the intermediate state.
-/

inductive Settle
  | resolved
  | rejected (msg : String)
deriving DecidableEq

structure WSMsg where
  audio : Option String
  isFinal : Bool
deriving DecidableEq

inductive RawMsg
  | malformed
  | msg (m : WSMsg)
deriving DecidableEq

inductive PlayerPhase
  | notStarted
  | waiting (final : Bool)
  | exited (code : Nat) (final : Bool)
  | finished
deriving DecidableEq

structure MState where
  pending : List Bool
  player : PlayerPhase
  chunksReceived : Nat
  fileExists : Bool
  fileContent : List Nat
  unlinkAttempts : Nat
  unlinkSuccesses : Nat
  outcome : Option Settle
  closeFired : Bool
  -- ghost fields (write-once observations, never read by a transition)
  playerStarts : Nat
  startChunks : Option Nat
  startBytes : Option Nat
  deliveredAfterUnlink : Bool
  resolvedWhilePlayerRunning : Bool
  resolvedByStarter : Bool
deriving DecidableEq

def initState : MState :=
  { pending := []
    player := .notStarted
    chunksReceived := 0
    fileExists := false
    fileContent := []
    unlinkAttempts := 0
    unlinkSuccesses := 0
    outcome := none
    closeFired := false
    playerStarts := 0
    startChunks := none
    startBytes := none
    deliveredAfterUnlink := false
    resolvedWhilePlayerRunning := false
    resolvedByStarter := false }

/-- One `fs.unlink(tempFile)` call; an ENOENT failure is counted as an
attempt but not a success (every call site swallows or out-ranks it). -/
def unlinkAttempt (s : MState) : MState :=
  { s with
    unlinkAttempts := s.unlinkAttempts + 1
    unlinkSuccesses := s.unlinkSuccesses + (if s.fileExists then 1 else 0)
    fileExists := false
    fileContent := [] }

/-- The tail of the `message` handler:
`if (message.isFinal) { ws.close(); resolve(); }` — `resolve` settles the
promise only if it is not settled yet. -/
def runFinal (byStarter fin : Bool) (s : MState) : MState :=
  if fin then
    match s.outcome with
    | some _ => s
    | none =>
        { s with
          outcome := some .resolved
          resolvedWhilePlayerRunning :=
            s.resolvedWhilePlayerRunning ||
              (match s.player with | .waiting _ => true | _ => false)
          resolvedByStarter := s.resolvedByStarter || byStarter }
  else s

inductive Label
  | deliver (m : RawMsg)
  | resumeAt (i : Nat)
  | playerExit (code : Nat)
  | resumeStarter
  | wsError (e : String)
  | wsClose
deriving DecidableEq

def step (s : MState) : Label → MState
  | .deliver .malformed => s
    -- `JSON.parse(data.toString())` throws; the async handler dies with an
    -- unhandled rejection before touching any state.
  | .deliver (.msg m) =>
    if s.closeFired then s else
    match m.audio with
    | none => s  -- `if (!message.audio) { ...; return; }`
    | some a =>
        -- `chunksReceived++` then `await fs.writeFile(tempFile, buf, {flag:"a"})`:
        -- the append creates the file if needed, even for zero decoded bytes.
        { s with
          chunksReceived := s.chunksReceived + 1
          fileExists := true
          fileContent := s.fileContent ++ nodeB64Decode a
          pending := s.pending ++ [m.isFinal]
          deliveredAfterUnlink :=
            s.deliveredAfterUnlink || decide (0 < s.unlinkAttempts) }
  | .resumeAt i =>
    match s.pending.get? i with
    | none => s
    | some fin =>
        let s' := { s with pending := s.pending.eraseIdx i }
        match s.player with
        | .notStarted =>
            -- `if (!isPlaying) { isPlaying = true; ...; await playAudio(tempFile) }`
            { s' with
              player := .waiting fin
              playerStarts := s.playerStarts + 1
              startChunks := some s.chunksReceived
              startBytes := some s.fileContent.length }
        | .waiting _ => runFinal false fin s'
        | .exited _ _ => runFinal false fin s'
        | .finished => runFinal false fin s'
  | .playerExit c =>
    match s.player with
    | .waiting fin => { s with player := .exited c fin }
    | .notStarted => s
    | .exited _ _ => s
    | .finished => s
  | .resumeStarter =>
    match s.player with
    | .exited c fin =>
        let s₁ := { s with player := .finished }
        if c = 0 then
          -- `await playAudio` succeeded: `await fs.unlink(tempFile)` then the
          -- `isFinal` check.
          runFinal true fin (unlinkAttempt s₁)
        else
          -- `playAudio` rejected: the catch runs
          -- `await fs.unlink(tempFile).catch(console.error); reject(err)`,
          -- then control still reaches the `isFinal` check.
          let s₂ := unlinkAttempt s₁
          let s₃ :=
            { s₂ with
              outcome :=
                match s₂.outcome with
                | some o => some o
                | none => some (.rejected ("afplay exited with code " ++ natToDecimal c)) }
          runFinal true fin s₃
    | .notStarted => s
    | .waiting _ => s
    | .finished => s
  | .wsError e =>
    if s.closeFired then s else
    -- `fs.unlink(tempFile).catch(console.error); reject(new Error(getErrorMessage(error)))`
    let s₁ := unlinkAttempt s
    { s₁ with
      outcome :=
        match s₁.outcome with
        | some o => some o
        | none => some (.rejected (getErrorMessage e)) }
  | .wsClose =>
    if s.closeFired then s else
    let s₁ := { s with closeFired := true }
    match s.player with
    | .notStarted => unlinkAttempt s₁  -- `if (!isPlaying) { fs.unlink(...).catch(...) }`
    | .waiting _ => s₁
    | .exited _ _ => s₁
    | .finished => s₁

def exec (ls : List Label) : MState := ls.foldl step initState

/-- A run is quiescent when no handler is suspended and `afplay` is not
running: nothing in the session can still act. -/
def Quiescent (s : MState) : Prop :=
  s.pending = [] ∧ (s.player = .notStarted ∨ s.player = .finished)

/-! ### Cleanup-failure handling (C7)

The three cleanup sites on failure paths attach `.catch(console.error)` to
`fs.unlink`; a cleanup failure is returned to the log, never thrown on. -/

/-- `promise.catch(console.error)`: a failure is converted into a log line. -/
def jsCatchLog : Except String Unit → Except String (List String)
  | .ok _ => .ok []
  | .error e => .ok [e]

/-- `ws.on("error", ...)`: `fs.unlink(tempFile).catch(console.error);`
then `reject(new Error(getErrorMessage(error)))`. -/
def wsErrorHandlerRun (err : String) (unlinkRes : Except String Unit) :
    Except String (Settle × List String) := do
  let logs ← jsCatchLog unlinkRes
  pure (.rejected (getErrorMessage err), logs)

/-- The catch block of the playback path:
`await fs.unlink(tempFile).catch(console.error); reject(err)`. -/
def playCatchRun (origErr : String) (unlinkRes : Except String Unit) :
    Except String (Settle × List String) := do
  let logs ← jsCatchLog unlinkRes
  pure (.rejected origErr, logs)

/-- `ws.on("close", ...)` cleanup: `fs.unlink(tempFile).catch(console.error)`. -/
def closeHandlerRun (unlinkRes : Except String Unit) : Except String (List String) :=
  jsCatchLog unlinkRes

/-! ### Inductive invariant of the machine -/

def Inv (s : MState) : Prop :=
  (s.deliveredAfterUnlink = false → s.fileExists = true → s.unlinkAttempts = 0) ∧
  (s.fileExists = true → 0 < s.chunksReceived) ∧
  (0 < s.chunksReceived → s.pending ≠ [] ∨ s.player ≠ .notStarted) ∧
  (s.player = .finished → 0 < s.unlinkAttempts) ∧
  (s.player = .notStarted → s.playerStarts = 0) ∧
  (s.player ≠ .notStarted → s.playerStarts = 1) ∧
  (∀ k, s.startChunks = some k → 1 ≤ k) ∧
  (s.pending ≠ [] → 0 < s.chunksReceived)

/-! ### Concrete runs used as counterexamples and witnesses -/

/-- One chunk, playback completes and unlinks the file, then a transport
error fires: its handler unlinks a second time. -/
def runDoubleUnlink : List Label :=
  [.deliver (.msg ⟨some "QUJD", false⟩), .resumeAt 0, .playerExit 0, .resumeStarter,
   .wsError "boom"]

/-- One audio-and-final chunk played to completion: a clean full session. -/
def runCleanSession : List Label :=
  [.deliver (.msg ⟨some "QUJD", true⟩), .resumeAt 0, .playerExit 0, .resumeStarter]

/-- A first chunk whose base64 payload `"="` decodes to zero bytes. -/
def runZeroByteChunk : List Label :=
  [.deliver (.msg ⟨some "=", false⟩), .resumeAt 0]

/-- A chunk-counting session used to witness the playback-start bound. -/
def runOneChunkStart : List Label :=
  [.deliver (.msg ⟨some "QUJD", true⟩), .resumeAt 0]

/-- Two chunks; `isFinal` rides on the second message, whose handler resolves
while the first handler is still awaiting `playAudio`. -/
def runResolveEarly : List Label :=
  [.deliver (.msg ⟨some "QUJD", false⟩), .resumeAt 0,
   .deliver (.msg ⟨some "REVG", true⟩), .resumeAt 0]

/-- A malformed (non-JSON) frame followed by a well-formed final chunk that
is processed to a successful resolution. -/
def runMalformedThenFinal : List Label :=
  [.deliver .malformed, .deliver (.msg ⟨some "QUJD", true⟩), .resumeAt 0,
   .playerExit 0, .resumeStarter]

/-! ## Theorems -/

/-! ### Text statistics (C10) -/

lemma splitWsGo_length (cs : List Char) : ∀ acc, 1 ≤ (splitWsGo cs acc).length := by
  induction cs with
  | nil => intro acc; cases acc <;> simp [splitWsGo]
  | cons c rest ih =>
    intro acc
    cases acc with
    | none =>
      by_cases hw : c.isWhitespace
      · simpa [splitWsGo, hw] using ih none
      · simpa [splitWsGo, hw] using ih (some [c])
    | some cur =>
      by_cases hw : c.isWhitespace
      · simp [splitWsGo, hw]
      · simpa [splitWsGo, hw] using ih (some (c :: cur))

/-- C10: for every input string — the empty string and whitespace-only
strings included — `getTextStats` reports a `wordCount` of at least 1;
splitting on `/\s+/` always yields at least one element, so the word count
of `""` and of `"   "` is 1, not 0. -/
theorem C10_wordcount_at_least_one :
    (∀ s : String, 1 ≤ (getTextStats s).wordCount) ∧
    (getTextStats "").wordCount = 1 ∧
    (getTextStats "   ").wordCount = 1 := by
  refine ⟨fun s => ?_, by decide, by decide⟩
  simp only [getTextStats, jsSplitWs, List.length_map]
  exact splitWsGo_length _ _

/-! ### Handshake messages (C8) -/

/-- C8: on connection open the session sends exactly three messages in
order — the configuration object whose `generation_config` carries
`chunk_length_schedule = [120,160,250,290]` and `stream_chunk_size = 8192`,
then `{"type":"bos"}`, then `{"type":"eos"}` — with no incremental text
messages. -/
theorem C8_handshake_messages :
    ∀ (t : String) (vs : VoiceSettings),
      openHandlerSends t vs =
        [OutboundMsg.cfg
          { text := t
            voice_settings := vs
            generation_config :=
              { chunk_length_schedule := [120, 160, 250, 290]
                stream_chunk_size := 8192 } },
         OutboundMsg.bos, OutboundMsg.eos] :=
  fun _ _ => rfl

/-! ### Temp-file naming (C9) -/

lemma digitChar10_toNat {m : Nat} (h : m < 10) : (digitChar10 m).toNat = 48 + m := by
  interval_cases m <;> decide

lemma lsbVal_natDigitsRev (n : Nat) : lsbVal (natDigitsRev n) = n := by
  induction n using Nat.strong_induction_on with
  | _ n ih =>
    by_cases h : n = 0
    · subst h; simp [natDigitsRev, lsbVal]
    · rw [natDigitsRev, dif_neg h]
      have hdiv : n / 10 < n := Nat.div_lt_self (Nat.pos_of_ne_zero h) (by norm_num)
      simp only [lsbVal, ih (n / 10) hdiv, digitChar10_toNat (Nat.mod_lt n (by norm_num))]
      omega

lemma natToDecimal_inj (m n : Nat) (h : natToDecimal m = natToDecimal n) : m = n := by
  have hd := congrArg String.data h
  by_cases hm : m = 0 <;> by_cases hn : n = 0
  · omega
  · exfalso
    apply hn
    simp only [natToDecimal, hm, hn, if_true, if_false] at hd
    have hrev : natDigitsRev n = ['0'] := by
      have h1 : ((natDigitsRev n).reverse.asString).data = (natDigitsRev n).reverse := rfl
      rw [h1] at hd
      have := congrArg List.reverse hd
      simpa using this.symm
    have := lsbVal_natDigitsRev n
    rw [hrev] at this
    simp [lsbVal] at this
    omega
  · exfalso
    apply hm
    simp only [natToDecimal, hm, hn, if_true, if_false] at hd
    have hrev : natDigitsRev m = ['0'] := by
      have h1 : ((natDigitsRev m).reverse.asString).data = (natDigitsRev m).reverse := rfl
      rw [h1] at hd
      have := congrArg List.reverse hd
      simpa using this
    have := lsbVal_natDigitsRev m
    rw [hrev] at this
    simp [lsbVal] at this
    omega
  · simp only [natToDecimal, hm, hn, if_false] at hd
    have h1 : ((natDigitsRev m).reverse.asString).data = (natDigitsRev m).reverse := rfl
    have h2 : ((natDigitsRev n).reverse.asString).data = (natDigitsRev n).reverse := rfl
    rw [h1, h2] at hd
    have hrev : natDigitsRev m = natDigitsRev n := by
      have := congrArg List.reverse hd
      simpa using this
    have := congrArg lsbVal hrev
    rwa [lsbVal_natDigitsRev, lsbVal_natDigitsRev] at this

/-- C9 counterexample: the temp path is a function of the millisecond clock
reading alone, so two invocations that both read `Date.now() =
1705003200000` — possible for concurrent invocations within the same
millisecond — produce the *same* path; the claimed instance of distinctness
is false. -/
theorem C9_counterexample :
    ¬(tempFileName "/tmp" 1705003200000 ≠ tempFileName "/tmp" 1705003200000) :=
  fun h => h rfl

/-- C9 amended: two invocations get distinct temp paths exactly when their
`Date.now()` readings differ; same-millisecond invocations share a path. -/
theorem C9_amended (tmpdir : String) (t₁ t₂ : Nat) (h : t₁ ≠ t₂) :
    tempFileName tmpdir t₁ ≠ tempFileName tmpdir t₂ := by
  intro he
  apply h
  apply natToDecimal_inj
  have hd := congrArg String.data he
  simp only [tempFileName, String.data_append, List.append_assoc] at hd
  have hd1 := List.append_cancel_left hd
  have hd2 := List.append_cancel_left hd1
  have hd3 := List.append_cancel_left hd2
  have hd4 := List.append_cancel_right hd3
  exact congrArg String.mk hd4

theorem C9_amended_witness :
    (1705003200000 : Nat) ≠ 1705003200001 ∧
    tempFileName "/tmp" 1705003200000 ≠ tempFileName "/tmp" 1705003200001 :=
  ⟨by decide, C9_amended "/tmp" 1705003200000 1705003200001 (by decide)⟩

/-! ### Chunk accumulation (C2) -/

lemma step_deliver_noAudio (s : MState) (b : Bool) :
    step s (.deliver (.msg ⟨none, b⟩)) = s := by
  by_cases hc : s.closeFired <;> simp [step, hc]

lemma step_deliver_audio (s : MState) (a : String) (b : Bool) (hc : s.closeFired = false) :
    step s (.deliver (.msg ⟨some a, b⟩)) =
      { s with
        chunksReceived := s.chunksReceived + 1
        fileExists := true
        fileContent := s.fileContent ++ nodeB64Decode a
        pending := s.pending ++ [b]
        deliveredAfterUnlink := s.deliveredAfterUnlink || decide (0 < s.unlinkAttempts) } := by
  simp [step, hc]

lemma deliver_foldl (ms : List WSMsg) :
    ∀ s : MState, s.closeFired = false →
      (List.foldl step s (ms.map (fun m => Label.deliver (.msg m)))).fileContent
        = s.fileContent ++ ((ms.filterMap WSMsg.audio).map nodeB64Decode).flatten ∧
      (List.foldl step s (ms.map (fun m => Label.deliver (.msg m)))).chunksReceived
        = s.chunksReceived + ms.countP (fun m => m.audio.isSome) := by
  induction ms with
  | nil => intro s _; simp
  | cons m rest ih =>
    intro s hc
    obtain ⟨audio, fin⟩ := m
    cases audio with
    | none =>
      rw [List.map_cons, List.foldl_cons, step_deliver_noAudio]
      have h := ih s hc
      simpa [List.countP_cons] using h
    | some a =>
      rw [List.map_cons, List.foldl_cons, step_deliver_audio s a fin hc]
      obtain ⟨h1, h2⟩ :=
        ih { s with
              chunksReceived := s.chunksReceived + 1
              fileExists := true
              fileContent := s.fileContent ++ nodeB64Decode a
              pending := s.pending ++ [fin]
              deliveredAfterUnlink := s.deliveredAfterUnlink || decide (0 < s.unlinkAttempts) }
          hc
      constructor
      · rw [h1]; simp [List.append_assoc]
      · rw [h2]; simp [List.countP_cons]; omega

/-- C2: for any inbound message sequence, the bytes accumulated in the
temporary file are the base64-decoded audio payloads concatenated in arrival
order, the chunk counter equals the number of audio-bearing messages, and a
message without an `audio` field leaves the whole session state unchanged. -/
theorem C2_stream_accumulation :
    ∀ ms : List WSMsg,
      ((exec (ms.map (fun m => Label.deliver (.msg m)))).fileContent
          = ((ms.filterMap WSMsg.audio).map nodeB64Decode).flatten ∧
        (exec (ms.map (fun m => Label.deliver (.msg m)))).chunksReceived
          = ms.countP (fun m => m.audio.isSome)) ∧
      ∀ (s : MState) (b : Bool), step s (.deliver (.msg ⟨none, b⟩)) = s := by
  intro ms
  refine ⟨?_, fun s b => step_deliver_noAudio s b⟩
  have h := deliver_foldl ms initState rfl
  simpa [exec, initState] using h

/-! ### The inductive invariant (C1, C3) -/

lemma inv_runFinal {s : MState} (b f : Bool) (h : Inv s) : Inv (runFinal b f s) := by
  unfold runFinal
  split
  · split
    · exact h
    · exact h
  · exact h

lemma inv_pending_erase {s : MState} (i : Nat) (h : Inv s) (hpne : s.pending ≠ [])
    (hnp : s.player ≠ .notStarted) : Inv { s with pending := s.pending.eraseIdx i } := by
  obtain ⟨h1, h2, h3, h4, h5, h6, h7, h8⟩ := h
  exact ⟨h1, h2, fun _ => Or.inr hnp, h4, h5, h6, h7, fun _ => h8 hpne⟩

lemma inv_step (s : MState) (l : Label) (h : Inv s) : Inv (step s l) := by
  obtain ⟨h1, h2, h3, h4, h5, h6, h7, h8⟩ := h
  cases l with
  | deliver m =>
    cases m with
    | malformed => exact ⟨h1, h2, h3, h4, h5, h6, h7, h8⟩
    | msg m =>
      obtain ⟨audio, fin⟩ := m
      by_cases hc : s.closeFired
      · simp only [step, hc, if_true]
        exact ⟨h1, h2, h3, h4, h5, h6, h7, h8⟩
      · have hc' : s.closeFired = false := by revert hc; cases s.closeFired <;> simp
        cases audio with
        | none =>
          rw [step_deliver_noAudio]
          exact ⟨h1, h2, h3, h4, h5, h6, h7, h8⟩
        | some a =>
          rw [step_deliver_audio s a fin hc']
          refine ⟨?_, ?_, ?_, h4, h5, h6, h7, ?_⟩
          · intro hg _
            replace hg : (s.deliveredAfterUnlink || decide (0 < s.unlinkAttempts)) = false := hg
            have h0 := of_decide_eq_false (Bool.or_eq_false_iff.mp hg).2
            show s.unlinkAttempts = 0
            omega
          · intro _
            show 0 < s.chunksReceived + 1
            omega
          · intro _
            left
            show s.pending ++ [fin] ≠ []
            simp
          · intro _
            show 0 < s.chunksReceived + 1
            omega
  | resumeAt i =>
    rcases hg : s.pending.get? i with _ | fin
    · simp only [step, hg]
      exact ⟨h1, h2, h3, h4, h5, h6, h7, h8⟩
    · have hpne : s.pending ≠ [] := by
        intro he; rw [he] at hg; simp at hg
      rcases hp : s.player with _ | f | ⟨c, f⟩ | _
      · -- notStarted: the resumed handler starts playback
        simp only [step, hg, hp]
        refine ⟨h1, h2, ?_, ?_, ?_, ?_, ?_, ?_⟩
        · intro _
          right
          show PlayerPhase.waiting fin ≠ PlayerPhase.notStarted
          simp
        · intro hh
          exact absurd hh (by simp)
        · intro hh
          exact absurd hh (by simp)
        · intro _
          show s.playerStarts + 1 = 1
          rw [h5 hp]
        · intro k hk
          replace hk : some s.chunksReceived = some k := hk
          injection hk with hk
          subst hk
          exact h8 hpne
        · intro _
          exact h8 hpne
      · simp only [step, hg, hp]
        apply inv_runFinal
        have h' := inv_pending_erase i ⟨h1, h2, h3, h4, h5, h6, h7, h8⟩ hpne (by rw [hp]; simp)
        rwa [hp] at h'
      · simp only [step, hg, hp]
        apply inv_runFinal
        have h' := inv_pending_erase i ⟨h1, h2, h3, h4, h5, h6, h7, h8⟩ hpne (by rw [hp]; simp)
        rwa [hp] at h'
      · simp only [step, hg, hp]
        apply inv_runFinal
        have h' := inv_pending_erase i ⟨h1, h2, h3, h4, h5, h6, h7, h8⟩ hpne (by rw [hp]; simp)
        rwa [hp] at h' 
  | playerExit c =>
    rcases hp : s.player with _ | f | ⟨c', f⟩ | _
    · simp only [step, hp]
      exact ⟨h1, h2, h3, h4, h5, h6, h7, h8⟩
    · simp only [step, hp]
      refine ⟨h1, h2, ?_, ?_, ?_, ?_, h7, h8⟩
      · intro _
        exact Or.inr (fun hh => PlayerPhase.noConfusion hh)
      · intro hh
        exact absurd hh (fun hh' => PlayerPhase.noConfusion hh')
      · intro hh
        exact absurd hh (fun hh' => PlayerPhase.noConfusion hh')
      · intro _
        exact h6 (fun hh => PlayerPhase.noConfusion (hp.symm.trans hh))
    · simp only [step, hp]
      exact ⟨h1, h2, h3, h4, h5, h6, h7, h8⟩
    · simp only [step, hp]
      exact ⟨h1, h2, h3, h4, h5, h6, h7, h8⟩
  | resumeStarter =>
    rcases hp : s.player with _ | f | ⟨c, f⟩ | _
    · simp only [step, hp]
      exact ⟨h1, h2, h3, h4, h5, h6, h7, h8⟩
    · simp only [step, hp]
      exact ⟨h1, h2, h3, h4, h5, h6, h7, h8⟩
    · simp only [step, hp]
      have hU : Inv (unlinkAttempt { s with player := .finished }) := by
        refine ⟨?_, ?_, ?_, ?_, ?_, ?_, h7, h8⟩
        · intro _ hfe
          exact Bool.noConfusion (show false = true from hfe)
        · intro hfe
          exact Bool.noConfusion (show false = true from hfe)
        · intro _
          exact Or.inr (fun hh => PlayerPhase.noConfusion hh)
        · intro _
          exact Nat.succ_pos _
        · intro hh
          exact absurd hh (fun hh' => PlayerPhase.noConfusion hh')
        · intro _
          show s.playerStarts = 1
          exact h6 (fun hh => PlayerPhase.noConfusion (hp.symm.trans hh))
      by_cases hc0 : c = 0
      · rw [if_pos hc0]
        exact inv_runFinal _ _ hU
      · rw [if_neg hc0]
        apply inv_runFinal
        exact hU
    · simp only [step, hp]
      exact ⟨h1, h2, h3, h4, h5, h6, h7, h8⟩
  | wsError e =>
    by_cases hc : s.closeFired
    · simp only [step, hc, if_true]
      exact ⟨h1, h2, h3, h4, h5, h6, h7, h8⟩
    · have hc' : s.closeFired = false := by revert hc; cases s.closeFired <;> simp
      simp only [step, hc', Bool.false_eq_true, if_false]
      refine ⟨?_, ?_, h3, ?_, h5, h6, h7, h8⟩
      · intro _ hfe
        exact Bool.noConfusion (show false = true from hfe)
      · intro hfe
        exact Bool.noConfusion (show false = true from hfe)
      · intro _
        exact Nat.succ_pos _
  | wsClose =>
    by_cases hc : s.closeFired
    · simp only [step, hc, if_true]
      exact ⟨h1, h2, h3, h4, h5, h6, h7, h8⟩
    · have hc' : s.closeFired = false := by revert hc; cases s.closeFired <;> simp
      rcases hp : s.player with _ | f | ⟨c, f⟩ | _
      · simp only [step, hc', Bool.false_eq_true, if_false, hp]
        refine ⟨?_, ?_, ?_, ?_, ?_, ?_, h7, h8⟩
        · intro _ hfe
          exact Bool.noConfusion (show false = true from hfe)
        · intro hfe
          exact Bool.noConfusion (show false = true from hfe)
        · intro hc0
          exact Or.inl ((h3 hc0).resolve_right (fun hr => hr hp))
        · intro hh
          exact absurd hh (fun hh' => PlayerPhase.noConfusion hh')
        · intro _
          exact h5 hp
        · intro hh
          exact absurd rfl hh
      · simp only [step, hc', Bool.false_eq_true, if_false, hp]
        exact ⟨h1, h2, fun _ => Or.inr (fun hh => PlayerPhase.noConfusion hh),
          fun hh => absurd hh (fun hh' => PlayerPhase.noConfusion hh'),
          fun hh => absurd hh (fun hh' => PlayerPhase.noConfusion hh'),
          fun _ => h6 (fun hh => PlayerPhase.noConfusion (hp.symm.trans hh)), h7, h8⟩
      · simp only [step, hc', Bool.false_eq_true, if_false, hp]
        exact ⟨h1, h2, fun _ => Or.inr (fun hh => PlayerPhase.noConfusion hh),
          fun hh => absurd hh (fun hh' => PlayerPhase.noConfusion hh'),
          fun hh => absurd hh (fun hh' => PlayerPhase.noConfusion hh'),
          fun _ => h6 (fun hh => PlayerPhase.noConfusion (hp.symm.trans hh)), h7, h8⟩
      · simp only [step, hc', Bool.false_eq_true, if_false, hp]
        exact ⟨h1, h2, fun _ => Or.inr (fun hh => PlayerPhase.noConfusion hh),
          fun _ => h4 hp,
          fun hh => absurd hh (fun hh' => PlayerPhase.noConfusion hh'),
          fun _ => h6 (fun hh => PlayerPhase.noConfusion (hp.symm.trans hh)), h7, h8⟩

lemma inv_init : Inv initState := by
  refine ⟨?_, ?_, ?_, ?_, ?_, ?_, ?_, ?_⟩ <;> simp [initState]

lemma inv_foldl (ls : List Label) : ∀ s, Inv s → Inv (List.foldl step s ls) := by
  induction ls with
  | nil => intro s h; exact h
  | cons l rest ih => intro s h; exact ih _ (inv_step s l h)

lemma inv_exec (ls : List Label) : Inv (exec ls) := inv_foldl ls initState inv_init

/-! ### Temp-file cleanup (C1) -/

/-- C1 counterexample: a terminating run (one chunk, playback completes and
unlinks the file, then a transport error fires) attempts deletion twice —
the error handler unlinks a file already deleted by the success path — so
"no execution path attempts a second deletion" is false. -/
theorem C1_counterexample :
    (exec runDoubleUnlink).unlinkAttempts = 2 ∧
    (exec runDoubleUnlink).unlinkSuccesses = 1 ∧
    (exec runDoubleUnlink).outcome = some (.rejected "ElevenLabs error: boom") ∧
    Quiescent (exec runDoubleUnlink) := by
  exact ⟨by decide, by decide, by decide, by decide, by decide⟩

/-- C1 amended: after every terminating (quiescent, settled) run in which no
audio chunk was appended after a deletion attempt, the temporary file no
longer exists; deletion may however be *attempted* more than once — the
extra attempts find the file already gone and are swallowed. -/
theorem C1_amended (ls : List Label) (hq : Quiescent (exec ls))
    (_ho : (exec ls).outcome.isSome = true)
    (hg : (exec ls).deliveredAfterUnlink = false) :
    (exec ls).fileExists = false := by
  obtain ⟨h1, h2, h3, h4, _h5, _h6, _h7, _h8⟩ := inv_exec ls
  by_contra hf
  have hfe : (exec ls).fileExists = true := by
    revert hf; cases (exec ls).fileExists <;> simp
  have hA := h1 hg hfe
  have hC := h2 hfe
  obtain ⟨hp, hpl⟩ := hq
  rcases h3 hC with hD | hD
  · exact hD hp
  · rcases hpl with hpl | hpl
    · exact hD hpl
    · have := h4 hpl
      omega

theorem C1_amended_witness :
    Quiescent (exec runCleanSession) ∧
    (exec runCleanSession).outcome.isSome = true ∧
    (exec runCleanSession).deliveredAfterUnlink = false ∧
    (exec runCleanSession).fileExists = false :=
  ⟨by constructor <;> decide, by decide, by decide,
    C1_amended runCleanSession (by constructor <;> decide) (by decide) (by decide)⟩

/-! ### Playback start (C3) -/

/-- C3 counterexample: the first audio-bearing message may decode to zero
bytes (base64 payload `"="`), so the player is started against a zero-byte
file: the appended "decoded chunk" is empty. -/
theorem C3_counterexample :
    (exec runZeroByteChunk).playerStarts = 1 ∧
    (exec runZeroByteChunk).startBytes = some 0 ∧
    (exec runZeroByteChunk).fileExists = true ∧
    (exec runZeroByteChunk).fileContent = [] := by
  refine ⟨?_, ?_, ?_, ?_⟩ <;> decide

/-- C3 amended: the player is started at most once per session, only after
at least one audio-bearing message has been counted and appended (the chunk
counter is ≥ 1 at start), and exactly once in every completed session with
at least one chunk — but the file may still hold zero bytes at start when
the first payload decodes to nothing. -/
theorem C3_amended (ls : List Label) :
    (exec ls).playerStarts ≤ 1 ∧
    (∀ k, (exec ls).startChunks = some k → 1 ≤ k) ∧
    ((exec ls).pending = [] → 0 < (exec ls).chunksReceived →
      (exec ls).playerStarts = 1) := by
  obtain ⟨_h1, _h2, h3, _h4, h5, h6, h7, _h8⟩ := inv_exec ls
  refine ⟨?_, h7, ?_⟩
  · by_cases hp : (exec ls).player = .notStarted
    · rw [h5 hp]
      omega
    · rw [h6 hp]
  · intro hpend hchunks
    rcases h3 hchunks with h | h
    · exact absurd hpend h
    · exact h6 h

theorem C3_amended_witness :
    (exec runOneChunkStart).startChunks = some 1 ∧
    (1 : Nat) ≤ 1 ∧
    (exec runOneChunkStart).pending = [] ∧
    0 < (exec runOneChunkStart).chunksReceived ∧
    (exec runOneChunkStart).playerStarts = 1 :=
  ⟨by decide, (C3_amended runOneChunkStart).2.1 1 (by decide), by decide, by decide,
    (C3_amended runOneChunkStart).2.2 (by decide) (by decide)⟩

/-! ### Resolution vs. player completion (C4) -/

/-- C4: when `isFinal` arrives on a message *after* the one that started
playback, that message's handler runs `ws.close(); resolve()` immediately —
while the first handler is still suspended on `await playAudio` — so the
promise resolves successfully *before* the spawned player completes,
contradicting the function's own contract ("resolves when audio playback
completes").  Concretely: chunks `"QUJD"`, `"REVG"` (isFinal), the file
holds `"ABCDEF"`, yet `afplay` is still running at resolution. -/
theorem C4_resolves_before_player_done :
    (exec runResolveEarly).outcome = some .resolved ∧
    (exec runResolveEarly).player = .waiting false ∧
    (exec runResolveEarly).resolvedWhilePlayerRunning = true ∧
    (exec runResolveEarly).fileContent = [65, 66, 67, 68, 69, 70] := by
  refine ⟨?_, ?_, ?_, ?_⟩ <;> decide

/-! ### Malformed inbound messages (C6) -/

/-- C6 counterexample: a malformed (non-JSON) frame does *not* reject the
promise — the session continues and a later well-formed final chunk still
resolves it successfully, so a partial-success resolution does occur and no
classified `ProtocolError` rejection ever happens. -/
theorem C6_counterexample :
    (exec runMalformedThenFinal).outcome = some .resolved ∧
    (exec runMalformedThenFinal).chunksReceived = 1 := by
  refine ⟨?_, ?_⟩ <;> decide

/-- C6 amended: `JSON.parse` throws inside the async `message` handler
before any session state is touched; the exception escapes as an unhandled
rejection, leaving the session state — promise outcome included — entirely
unchanged: the malformed message is a no-op for the session rather than a
classified fatal error. -/
theorem C6_amended : ∀ s : MState, step s (.deliver .malformed) = s :=
  fun _ => rfl

/-! ### Cleanup failures are swallowed (C7) -/

/-- C7: on each failure path (transport error handler, playback catch block,
close handler), a failing `fs.unlink` is converted to a log entry by
`.catch(console.error)`: the handler never raises, and the settled rejection
carries the original classified error, never the cleanup failure. -/
theorem C7_cleanup_swallowed :
    ∀ (e origErr : String) (u : Except String Unit),
      (∃ logs, wsErrorHandlerRun e u = .ok (.rejected (getErrorMessage e), logs)) ∧
      (∃ logs, playCatchRun origErr u = .ok (.rejected origErr, logs)) ∧
      (∃ logs, closeHandlerRun u = .ok logs) := by
  intro e o u
  cases u <;> exact ⟨⟨_, rfl⟩, ⟨_, rfl⟩, ⟨_, rfl⟩⟩

/-! ### Settings normalisation (C5) -/

lemma clampPipe (x : JsVal) (d : ℚ) (hd0 : 0 ≤ d) (hd1 : d ≤ 1) :
    (∃ q, jsMin (.fin 1) (jsMax (.fin 0) (jsOr x (.fin d))) = .fin q ∧ 0 ≤ q ∧ q ≤ 1) ∧
    (jsTruthy x = false → jsMin (.fin 1) (jsMax (.fin 0) (jsOr x (.fin d))) = .fin d) ∧
    (∀ q : ℚ, x = .fin q → q ≠ 0 →
      jsMin (.fin 1) (jsMax (.fin 0) (jsOr x (.fin d))) = .fin (min 1 (max 0 q))) := by
  cases x with
  | nan =>
    refine ⟨⟨d, ?_, hd0, hd1⟩, fun _ => ?_, fun q hq _ => JsVal.noConfusion hq⟩ <;>
      simp [jsOr, jsTruthy, jsMax, jsMin, max_eq_right hd0, min_eq_right hd1]
  | posInf =>
    refine ⟨⟨1, ?_, by norm_num, le_refl 1⟩, fun htr => ?_, fun q hq _ => JsVal.noConfusion hq⟩
    · simp [jsOr, jsTruthy, jsMax, jsMin]
    · simp [jsTruthy] at htr
  | negInf =>
    have hm : min (1 : ℚ) 0 = 0 := min_eq_right (by norm_num)
    refine ⟨⟨0, ?_, le_refl 0, by norm_num⟩, fun htr => ?_, fun q hq _ => JsVal.noConfusion hq⟩
    · simp [jsOr, jsTruthy, jsMax, jsMin, hm]
    · simp [jsTruthy] at htr
  | fin q =>
    by_cases hq0 : q = 0
    · subst hq0
      refine ⟨⟨d, ?_, hd0, hd1⟩, fun _ => ?_, fun q' hq' hne => ?_⟩
      · simp [jsOr, jsTruthy, jsMax, jsMin, max_eq_right hd0, min_eq_right hd1]
      · simp [jsOr, jsTruthy, jsMax, jsMin, max_eq_right hd0, min_eq_right hd1]
      · cases hq'
        exact absurd rfl hne
    · refine ⟨⟨min 1 (max 0 q), ?_, le_min (by norm_num) (le_max_left 0 q), min_le_left 1 _⟩,
        fun htr => ?_, fun q' hq' _ => ?_⟩
      · simp [jsOr, jsTruthy, hq0, jsMax, jsMin]
      · simp [jsTruthy, hq0] at htr
      · cases hq'
        simp [jsOr, jsTruthy, hq0, jsMax, jsMin]

/-- C5 counterexample: the preference string `"0"` parses successfully to
the number 0, but `parseFloat(s) || 0.5` treats 0 as falsy, so the result is
the default 0.5 rather than the claimed clamp `min(1, max(0, 0)) = 0`. -/
theorem C5_counterexample :
    jsParseFloat "0" = .fin 0 ∧
    (prepareVoiceSettings "0" "0").stability = .fin (1 / 2) ∧
    (1 / 2 : ℚ) ≠ min 1 (max 0 0) := by
  have h0 : jsParseFloat "0" = .fin 0 := by
    simp [jsParseFloat, parseDecimal, expPart, digitsToNat]
  refine ⟨h0, ?_, by norm_num⟩
  show jsMin (.fin 1) (jsMax (.fin 0) (jsOr (jsParseFloat "0") (.fin 0.5))) = .fin (1 / 2)
  rw [h0]
  have : (0.5 : ℚ) = 1 / 2 := by norm_num
  simp [jsOr, jsTruthy, jsMax, jsMin, this]
  norm_num

/-- C5 amended: `prepareVoiceSettings` never fails and both fields are
finite numbers in [0,1]; an input that is falsy after parsing — a parse
failure *or* a successful parse of exactly 0 — yields the default (0.5 for
stability, 0.75 for similarity boost); an input parsing to a nonzero x is
clamped to `min(1, max(0, x))`, never defaulted. -/
theorem C5_amended (s₁ s₂ : String) :
    (∃ q, (prepareVoiceSettings s₁ s₂).stability = .fin q ∧ 0 ≤ q ∧ q ≤ 1) ∧
    (∃ q, (prepareVoiceSettings s₁ s₂).similarity_boost = .fin q ∧ 0 ≤ q ∧ q ≤ 1) ∧
    (jsTruthy (jsParseFloat s₁) = false →
      (prepareVoiceSettings s₁ s₂).stability = .fin 0.5) ∧
    (jsTruthy (jsParseFloat s₂) = false →
      (prepareVoiceSettings s₁ s₂).similarity_boost = .fin 0.75) ∧
    (∀ q : ℚ, jsParseFloat s₁ = .fin q → q ≠ 0 →
      (prepareVoiceSettings s₁ s₂).stability = .fin (min 1 (max 0 q))) ∧
    (∀ q : ℚ, jsParseFloat s₂ = .fin q → q ≠ 0 →
      (prepareVoiceSettings s₁ s₂).similarity_boost = .fin (min 1 (max 0 q))) := by
  have ha := clampPipe (jsParseFloat s₁) 0.5 (by norm_num) (by norm_num)
  have hb := clampPipe (jsParseFloat s₂) 0.75 (by norm_num) (by norm_num)
  exact ⟨ha.1, hb.1, ha.2.1, hb.2.1, ha.2.2, hb.2.2⟩

theorem C5_amended_witness :
    jsTruthy (jsParseFloat "abc") = false ∧
    (prepareVoiceSettings "abc" "2.5").stability = .fin 0.5 ∧
    (∃ q, (prepareVoiceSettings "abc" "2.5").similarity_boost = .fin q ∧ 0 ≤ q ∧ q ≤ 1) :=
  ⟨by decide, (C5_amended "abc" "2.5").2.2.1 (by decide), (C5_amended "abc" "2.5").2.1⟩

end ElevenTTS
